import Mathlib

/-!
Shallow embedding of the sampling-drum playback/sequencing engine
(`src/src/audio/AudioEngine.ts`, class `AudioEngine`).

Modelling conventions:
* JS numbers are modelled by `ℚ`.  `NaN` is not representable; the source's
  validity test `!d || isNaN(d) || d <= 0` on a buffer duration is therefore
  rendered as `d ≤ 0`.
* A decoded audio buffer (`Tone.ToneAudioBuffer`) is opaque to the engine
  except for its `duration`, the only field the engine reads; a buffer handle
  is modelled as `Option ℚ` (its duration), `none` meaning no sample loaded.
* JS arrays: writing past the end extends the array (`arr[i] = v` makes
  `arr.length = i + 1`, holes read back as falsy `undefined`); this is
  modelled by `jsWrite` below.  In-range element updates are `listModify`.
* External audio-graph effects (creating/disposing `Tone.Player` nodes,
  `Tone.Transport.start`, volume ramps, the `Tone.Sequence` object) are
  outside the engine's observable data state and are not modelled; the
  claims under verification only concern the engine's own state and the
  values the trigger path computes.
* `Tone.Transport.ticks` and `Tone.Transport.PPQ` are read by the engine
  from the ambient transport; they are carried as fields of the state,
  advanced only by the environment (`withTicks`).
* The audio-context running check (`Tone.getContext().state !== 'running'`)
  is carried as the state flag `ctxRunning`; when the context is suspended
  the source schedules an asynchronous retry and returns, which in this
  synchronous model is a no-op returning `TriggerResult.deferred`.
-/

namespace SamplingDrum

/-- In-range functional update of a list element; out-of-range indices leave
the list unchanged (the source never updates out-of-range elements except
where `jsWrite` is used instead). -/
def listModify (xs : List α) (i : Nat) (f : α → α) : List α :=
  match xs, i with
  | [], _ => []
  | x :: rest, 0 => f x :: rest
  | x :: rest, n + 1 => x :: listModify rest n f

/-- JS array element assignment `arr[i] = v`: in range it replaces, past the
end it extends the array to length `i + 1`, with holes reading back as the
falsy default `dflt`. -/
def jsWrite (xs : List α) (i : Nat) (dflt v : α) : List α :=
  match xs, i with
  | [], 0 => [v]
  | [], n + 1 => dflt :: jsWrite [] n dflt v
  | _ :: rest, 0 => v :: rest
  | x :: rest, n + 1 => x :: jsWrite rest n dflt v

/-- Sample slot state (interface `Sample`); `buffer` holds the decoded
buffer's duration in seconds, `none` when no sample is loaded. -/
structure Sample where
  id : String
  name : String
  buffer : Option ℚ
  startTime : ℚ
  endTime : ℚ
  volume : ℚ
  pan : ℚ
  deriving Repr, DecidableEq

/-- Step pattern (interface `Pattern`). -/
structure Pattern where
  id : String
  name : String
  length : Nat
  steps : List (List Bool)
  velocities : List (List ℚ)
  deriving Repr, DecidableEq

/-- Exported project shape (interface `Project`). -/
structure Project where
  id : String
  name : String
  samples : List Sample
  patterns : List Pattern
  currentPattern : Nat
  bpm : ℚ
  deriving Repr, DecidableEq

/-- The engine's own mutable fields, plus the ambient transport/context data
it reads (see the module comment). -/
structure EngineState where
  samples : List Sample
  patterns : List Pattern
  currentPattern : Nat
  isPlaying : Bool
  isRecording : Bool
  currentStep : Nat
  bpm : ℚ
  transportTicks : Nat
  ppq : Nat
  ctxRunning : Bool
  deriving Repr, DecidableEq

/-- Sample slot `i` as the constructor builds it. -/
def initSample (i : Nat) : Sample :=
  { id := "sample-" ++ toString i
    name := "Pad " ++ toString (i + 1)
    buffer := none
    startTime := 0
    endTime := 1
    volume := 4/5
    pan := 0 }

/-- The default pattern the constructor pushes: 16 × 16, steps all off,
velocities all 0.8. -/
def initPattern : Pattern :=
  { id := "pattern-1"
    name := "Pattern 1"
    length := 16
    steps := List.replicate 16 (List.replicate 16 false)
    velocities := List.replicate 16 (List.replicate 16 (4/5)) }

/-- Engine state right after the constructor runs.  `ctx` is the ambient
audio-context state; `Tone.Transport.PPQ` defaults to 192. -/
def mkEngine (ctx : Bool) : EngineState :=
  { samples := (List.range 16).map initSample
    patterns := [initPattern]
    currentPattern := 0
    isPlaying := false
    isRecording := false
    currentStep := 0
    bpm := 120
    transportTicks := 0
    ppq := 192
    ctxRunning := ctx }

/-- Environment action: the ambient transport clock advancing to tick `t`
(the engine only ever reads `Tone.Transport.ticks`). -/
def withTicks (t : Nat) (s : EngineState) : EngineState :=
  { s with transportTicks := t }

/-- Fallback for reading `this.samples[padIndex]` out of range (never
exercised by the claims; in-range indices are hypotheses where needed). -/
def emptySample : Sample :=
  { id := "", name := "", buffer := none, startTime := 0, endTime := 1
    volume := 4/5, pan := 0 }

/-- `getSample(padIndex)`. -/
def getSample (s : EngineState) (padIndex : Nat) : Sample :=
  s.samples.getD padIndex emptySample

/-- `getBPM()`. -/
def getBPM (s : EngineState) : ℚ := s.bpm

/-- `getCurrentStep()`. -/
def getCurrentStep (s : EngineState) : Nat := s.currentStep

/-- `setBPM(bpm)`: stores the value and forwards it to the transport (the
transport side is external). -/
def setBPM (bpm : ℚ) (s : EngineState) : EngineState :=
  { s with bpm := bpm }

/-- The empty fallback used when `this.patterns[this.currentPattern]` would
be `undefined` (never exercised by the claims). -/
def emptyPattern : Pattern :=
  { id := "", name := "", length := 0, steps := [], velocities := [] }

/-- `getCurrentPattern()`. -/
def getCurrentPattern (s : EngineState) : Pattern :=
  s.patterns.getD s.currentPattern emptyPattern

/-- The string-keyed properties `setSampleProperty` is called with by the UI. -/
inductive SampleProp where
  | volume
  | pan
  | startTime
  | endTime
  deriving Repr, DecidableEq

/-- `setSampleProperty(padIndex, property, value)`: replaces the slot record
with one field changed; `volume`/`pan` are additionally forwarded to the
player/panner nodes (external). -/
def setSampleProperty (padIndex : Nat) (prop : SampleProp) (v : ℚ)
    (s : EngineState) : EngineState :=
  { s with samples := listModify s.samples padIndex (fun sm =>
      match prop with
      | .volume => { sm with volume := v }
      | .pan => { sm with pan := v }
      | .startTime => { sm with startTime := v }
      | .endTime => { sm with endTime := v }) }

/-- `toggleStep(padIndex, stepIndex)`: flips the cell in place on the active
pattern (JS write semantics: a read of a hole is falsy, so `!` of it is
`true`, and the write can extend the row). -/
def toggleStep (padIndex stepIndex : Nat) (s : EngineState) : EngineState :=
  { s with patterns := listModify s.patterns s.currentPattern (fun p =>
      { p with steps := listModify p.steps padIndex (fun row =>
          jsWrite row stepIndex false (!(row.getD stepIndex false))) }) }

/-- `setStepVelocity(padIndex, stepIndex, velocity)`. -/
def setStepVelocity (padIndex stepIndex : Nat) (velocity : ℚ)
    (s : EngineState) : EngineState :=
  { s with patterns := listModify s.patterns s.currentPattern (fun p =>
      { p with velocities := listModify p.velocities padIndex (fun row =>
          jsWrite row stepIndex 0 velocity) }) }

/-- `addPattern()`: appends a fresh 16 × 16 pattern and returns it. -/
def addPattern (s : EngineState) : EngineState × Pattern :=
  let newPattern : Pattern :=
    { id := "pattern-" ++ toString (s.patterns.length + 1)
      name := "Pattern " ++ toString (s.patterns.length + 1)
      length := 16
      steps := List.replicate 16 (List.replicate 16 false)
      velocities := List.replicate 16 (List.replicate 16 (4/5)) }
  ({ s with patterns := s.patterns ++ [newPattern] }, newPattern)

/-- `setCurrentPattern(index)`: guarded switch of the active pattern. -/
def setCurrentPattern (index : Nat) (s : EngineState) : EngineState :=
  if index < s.patterns.length then { s with currentPattern := index } else s

/-- `play()`. -/
def play (s : EngineState) : EngineState :=
  if !s.isPlaying then { s with isPlaying := true } else s

/-- `stop()`. -/
def stop (s : EngineState) : EngineState :=
  { s with isPlaying := false, currentStep := 0 }

/-- `pause()`. -/
def pause (s : EngineState) : EngineState :=
  { s with isPlaying := false }

/-- `startRecording()`. -/
def startRecording (s : EngineState) : EngineState :=
  let s1 := { s with isRecording := true }
  if !s1.isPlaying then play s1 else s1

/-- `stopRecording()`. -/
def stopRecording (s : EngineState) : EngineState :=
  { s with isRecording := false }

/-- `getQuantizedStep()`: `Math.floor((Transport.ticks / Transport.PPQ) * 4) % 16`;
over naturals `⌊4 t / ppq⌋` is natural division. -/
def getQuantizedStep (s : EngineState) : Nat :=
  4 * s.transportTicks / s.ppq % 16

/-- `recordStep(padIndex, velocity)`: writes the quantized cell on the active
pattern in place. -/
def recordStep (padIndex : Nat) (velocity : ℚ) (s : EngineState) : EngineState :=
  let q := getQuantizedStep s
  { s with patterns := listModify s.patterns s.currentPattern (fun p =>
      { p with
        steps := listModify p.steps padIndex (fun row => jsWrite row q false true)
        velocities := listModify p.velocities padIndex (fun row =>
          jsWrite row q 0 velocity) }) }

/-- Outcome of a `triggerPad` call, for stating what the playback path did;
`started offset len` records the computed playback offset and length handed
to `player.start`. -/
inductive TriggerResult where
  | noSample
  | deferred
  | invalidDuration
  | invalidTiming
  | started (offset len : ℚ)
  deriving Repr, DecidableEq

/-- `triggerPad(padIndex, velocity, time?)`; `scheduled` is whether the
optional `time` argument was passed (sequencer-driven call).  Early returns
of the source become early results here; when the audio context is not
running the source schedules an asynchronous retry and returns, modelled as
`deferred` with no synchronous state change. -/
def triggerPad (padIndex : Nat) (velocity : ℚ) (scheduled : Bool)
    (s : EngineState) : EngineState × TriggerResult :=
  let sample := getSample s padIndex
  match sample.buffer with
  | none => (s, .noSample)
  | some bufferDuration =>
    if !s.ctxRunning then (s, .deferred)
    else if bufferDuration ≤ 0 then (s, .invalidDuration)
    else
      let startTime := max 0 (sample.startTime * bufferDuration)
      let endTime := min bufferDuration (sample.endTime * bufferDuration)
      let duration := endTime - startTime
      if duration ≤ 0 then (s, .invalidTiming)
      else
        let s1 := if s.isRecording && !scheduled then recordStep padIndex velocity s else s
        (s1, .started startTime duration)

/-- `loadSample(padIndex, file)`: the decode of the file's bytes is the
asynchronous environment step, passed in as `decoded` (`some d` = the bytes
decoded to a buffer of duration `d`, `none` = `decodeAudioData` rejected).
On success the slot keeps its record but for `name`, `buffer` and
`endTime := 1`; the player node rebuild is external.  On failure the `catch`
block logs and falls through, so the promise resolves and the state is
untouched; the returned `Except` is the promise outcome (`.error` would be a
rejection, which the source never produces). -/
def loadSample (padIndex : Nat) (decoded : Option ℚ) (fileName : String)
    (s : EngineState) : EngineState × Except Unit Unit :=
  match decoded with
  | some d =>
      ({ s with samples := listModify s.samples padIndex (fun sm =>
          { sm with name := fileName, buffer := some d, endTime := 1 }) },
       .ok ())
  | none => (s, .ok ())

/-- `exportProject()`: assembles the project record; `samples` and
`patterns` are the engine's own arrays, not copies (see the reference model
below for the aliasing this creates).  `now` is `Date.now()`. -/
def exportProject (now : Nat) (s : EngineState) : Project :=
  { id := "project-" ++ toString now
    name := "Untitled Project"
    samples := s.samples
    patterns := s.patterns
    currentPattern := s.currentPattern
    bpm := s.bpm }

/-- `loadProject(project)`: wholesale replacement plus `setBPM`; the player
rewiring and `updateSequence()` are external. -/
def loadProject (p : Project) (s : EngineState) : EngineState :=
  setBPM p.bpm
    { s with samples := p.samples
             patterns := p.patterns
             currentPattern := p.currentPattern }

/-- Whether a trigger outcome actually started a voice. -/
def TriggerResult.isStarted : TriggerResult → Bool
  | .started _ _ => true
  | _ => false

/-- Shape invariant of a single pattern: 16 rows in each matrix, every row
exactly `length` long. -/
def patOK (p : Pattern) : Prop :=
  p.steps.length = 16 ∧ p.velocities.length = 16 ∧
  (∀ r ∈ p.steps, r.length = p.length) ∧
  (∀ r ∈ p.velocities, r.length = p.length)

instance : DecidablePred patOK := fun p => by
  unfold patOK; infer_instance

/-- Shape invariant of the whole engine: every held pattern is well-shaped. -/
def shapeOK (s : EngineState) : Prop :=
  ∀ p ∈ s.patterns, patOK p

instance : DecidablePred shapeOK := fun s => by
  unfold shapeOK; infer_instance

/-!
Reference-semantics model of `exportProject`.  In the source, JS arrays are
heap objects and `exportProject` (lines 601-610) stores `this.samples` and
`this.patterns` into the returned record without copying, while `toggleStep`
(lines 472-476) mutates the active pattern's matrices in place through the
shared array.  To state aliasing, the pattern-array object lives in an
explicit heap and the engine and exported projects hold references into it.
-/

/-- Heap of pattern-array objects; a reference is an index into `patArrays`. -/
structure RefHeap where
  patArrays : List (List Pattern)
  deriving Repr, DecidableEq

/-- The engine's reference-valued fields (`this.patterns` is a reference to
a heap array object). -/
structure EngineRefs where
  patternsRef : Nat
  currentPattern : Nat
  deriving Repr, DecidableEq

/-- An exported project's reference-valued fields: `exportProject` copies
the reference, not the array. -/
structure ProjectRefs where
  id : String
  patternsRef : Nat
  currentPattern : Nat
  deriving Repr, DecidableEq

/-- `exportProject()` under reference semantics: no heap allocation or copy
happens; the snapshot holds the same array reference the engine holds. -/
def exportProjectRefs (now : Nat) (e : EngineRefs) : ProjectRefs :=
  { id := "project-" ++ toString now
    patternsRef := e.patternsRef
    currentPattern := e.currentPattern }

/-- The in-place cell flip `toggleStep` performs on a pattern. -/
def togglePatternCell (padIndex stepIndex : Nat) (p : Pattern) : Pattern :=
  { p with steps := listModify p.steps padIndex (fun row =>
      jsWrite row stepIndex false (!(row.getD stepIndex false))) }

/-- `toggleStep(padIndex, stepIndex)` under reference semantics: mutates the
pattern-array object the engine's `patterns` field refers to. -/
def toggleStepRefs (padIndex stepIndex : Nat) (e : EngineRefs) (h : RefHeap) :
    RefHeap :=
  { h with patArrays := listModify h.patArrays e.patternsRef (fun pats =>
      listModify pats e.currentPattern (togglePatternCell padIndex stepIndex)) }

/-- Reading a previously returned snapshot's pattern contents at a later
heap state (dereferencing its array reference). -/
def snapshotPatterns (p : ProjectRefs) (h : RefHeap) : List Pattern :=
  h.patArrays.getD p.patternsRef []

/-- The engine's current pattern contents at a heap state. -/
def enginePatternsView (e : EngineRefs) (h : RefHeap) : List Pattern :=
  h.patArrays.getD e.patternsRef []

/-- Heap right after construction: one pattern-array object holding the
default pattern. -/
def refHeap0 : RefHeap := { patArrays := [[initPattern]] }

/-- Engine references right after construction. -/
def engineRefs0 : EngineRefs := { patternsRef := 0, currentPattern := 0 }

/-!
Concrete states used by counterexamples and witnesses, all reached from the
freshly constructed engine through the public operations.
-/

/-- Engine with a 2-second sample loaded on pad 0. -/
def sLoaded : EngineState := (loadSample 0 (some 2) "kick.wav" (mkEngine true)).1

/-- Engine with a decoded buffer of duration 0 on pad 1 (an invalid duration
for the trigger path's `d <= 0` check). -/
def sZeroDur : EngineState := (loadSample 1 (some 0) "click.wav" (mkEngine true)).1

/-- A well-shaped pattern of length 8 (16 rows, 8 columns). -/
def pat8 : Pattern :=
  { id := "pattern-8", name := "Pattern 8", length := 8
    steps := List.replicate 16 (List.replicate 8 false)
    velocities := List.replicate 16 (List.replicate 8 (4/5)) }

/-- A project whose only pattern has length 8, as `loadProject` accepts. -/
def proj8 : Project :=
  { id := "proj-8", name := "Eight", samples := sLoaded.samples
    patterns := [pat8], currentPattern := 0, bpm := 120 }

/-- Recording engine whose active pattern has length 8, transport at tick
576 (step 12 of a 16-step bar at PPQ 192). -/
def sRec8 : EngineState := withTicks 576 (startRecording (loadProject proj8 sLoaded))

/-- Recording engine on the default 16-step pattern, transport at tick 576,
sample loaded on pad 0. -/
def sRec16 : EngineState := withTicks 576 (startRecording sLoaded)

/-! Helper lemmas about the array primitives. -/

theorem listModify_length (xs : List α) (i : Nat) (f : α → α) :
    (listModify xs i f).length = xs.length := by
  induction xs generalizing i with
  | nil => rfl
  | cons x rest ih =>
    cases i with
    | zero => rfl
    | succ n => simp [listModify, ih]

theorem listModify_getD_self (xs : List α) (i : Nat) (f : α → α) (dflt : α)
    (h : i < xs.length) :
    (listModify xs i f).getD i dflt = f (xs.getD i dflt) := by
  induction xs generalizing i with
  | nil => simp at h
  | cons x rest ih =>
    cases i with
    | zero => rfl
    | succ n =>
      simp only [listModify, List.getD_cons_succ]
      exact ih n (by simpa using h)

theorem mem_listModify (xs : List α) (i : Nat) (f : α → α) :
    ∀ x ∈ listModify xs i f, x ∈ xs ∨ ∃ h : i < xs.length, x = f (xs.get ⟨i, h⟩) := by
  induction xs generalizing i with
  | nil => intro x hx; simp [listModify] at hx
  | cons y rest ih =>
    intro x hx
    cases i with
    | zero =>
      rcases List.mem_cons.1 hx with h | h
      · exact Or.inr ⟨by simp, by simpa using h⟩
      · exact Or.inl (List.mem_cons_of_mem _ h)
    | succ n =>
      rcases List.mem_cons.1 hx with h | h
      · exact Or.inl (by simp [h])
      · rcases ih n x h with h2 | ⟨hlt, hx2⟩
        · exact Or.inl (List.mem_cons_of_mem _ h2)
        · exact Or.inr ⟨by simpa using Nat.succ_lt_succ hlt, by simpa using hx2⟩

theorem jsWrite_length (xs : List α) (i : Nat) (dflt v : α) :
    (jsWrite xs i dflt v).length = max xs.length (i + 1) := by
  induction i generalizing xs with
  | zero =>
    cases xs with
    | nil => rfl
    | cons x rest => simp [jsWrite]
  | succ n ih =>
    cases xs with
    | nil => simp [jsWrite, ih]
    | cons x rest =>
      simp only [jsWrite, List.length_cons, ih]
      omega

theorem jsWrite_length_of_lt (xs : List α) (i : Nat) (dflt v : α)
    (h : i < xs.length) : (jsWrite xs i dflt v).length = xs.length := by
  rw [jsWrite_length]; omega

theorem jsWrite_getD_self (xs : List α) (i : Nat) (dflt v d2 : α) :
    (jsWrite xs i dflt v).getD i d2 = v := by
  induction i generalizing xs with
  | zero => cases xs <;> rfl
  | succ n ih =>
    cases xs with
    | nil => simpa [jsWrite] using ih []
    | cons x rest => simpa [jsWrite] using ih rest

/-! Claim theorems. -/

/-- C1: `loadProject (exportProject ())` reproduces an observably identical
engine state: every pad's startTime, endTime, volume and pan, the pattern
list, the active pattern index, and `getBPM()` are all unchanged. -/
theorem loadProject_exportProject_roundtrip (now : Nat) (s : EngineState) :
    (∀ pad : Nat,
      (getSample (loadProject (exportProject now s) s) pad).startTime
          = (getSample s pad).startTime ∧
      (getSample (loadProject (exportProject now s) s) pad).endTime
          = (getSample s pad).endTime ∧
      (getSample (loadProject (exportProject now s) s) pad).volume
          = (getSample s pad).volume ∧
      (getSample (loadProject (exportProject now s) s) pad).pan
          = (getSample s pad).pan) ∧
    (loadProject (exportProject now s) s).patterns = s.patterns ∧
    (loadProject (exportProject now s) s).currentPattern = s.currentPattern ∧
    getBPM (loadProject (exportProject now s) s) = getBPM s :=
  ⟨fun _ => ⟨rfl, rfl, rfl, rfl⟩, rfl, rfl, rfl⟩

/-- C8: `setBPM x` makes `getBPM` return `x` immediately and leaves
`getCurrentStep` unchanged. -/
theorem setBPM_sets_bpm_preserves_step (x : ℚ) (s : EngineState) :
    getBPM (setBPM x s) = x ∧ getCurrentStep (setBPM x s) = getCurrentStep s :=
  ⟨rfl, rfl⟩

/-- C9 counterexample: two exports with no intervening mutation are not
deep-equal, because the `id` field embeds `Date.now()`; exports at
consecutive milliseconds differ. -/
theorem exportProject_consecutive_not_deepEqual :
    exportProject 0 (mkEngine true) ≠ exportProject 1 (mkEngine true) := by
  decide

/-- C9 amended: two exports with no intervening mutation agree on every
field except `id`: name, samples, patterns, active pattern index and BPM are
deterministic functions of the engine state. -/
theorem exportProject_deterministic_except_id (t1 t2 : Nat) (s : EngineState) :
    (exportProject t1 s).name = (exportProject t2 s).name ∧
    (exportProject t1 s).samples = (exportProject t2 s).samples ∧
    (exportProject t1 s).patterns = (exportProject t2 s).patterns ∧
    (exportProject t1 s).currentPattern = (exportProject t2 s).currentPattern ∧
    (exportProject t1 s).bpm = (exportProject t2 s).bpm :=
  ⟨rfl, rfl, rfl, rfl, rfl⟩

/-- C3 counterexample: when the bytes cannot be decoded, the `catch` block
swallows the error, so the promise resolves instead of rejecting: no
DecodeError reaches the immediate caller. -/
theorem loadSample_decode_failure_not_rejected :
    (loadSample 0 none ("bad.bin") (mkEngine true)).2 ≠ Except.error () := by
  simp [loadSample]

/-- C3 amended: when the bytes cannot be decoded, `loadSample` catches the
error internally (logging it only): the returned promise resolves normally
and the engine state — in particular the pad's previous sample, whose buffer
stays null if it was null — is left entirely untouched. -/
theorem loadSample_decode_failure_silent (pad : Nat) (name : String)
    (s : EngineState) : loadSample pad none name s = (s, Except.ok ()) :=
  rfl

/-- C6 counterexample: a successful `loadSample` does not reset `startTime`;
after setting pad 0's startTime to 1/2 and loading a new sample, startTime
is still 1/2 rather than 0. -/
theorem loadSample_keeps_old_startTime :
    (getSample (loadSample 0 (some 2) "kick.wav"
        (setSampleProperty 0 .startTime (mkRat 1 2) (mkEngine true))).1 0).startTime
      ≠ 0 := by
  decide

/-- C6 amended: a successful `loadSample` replaces the slot's buffer handle
and display name, resets `endTime` to 1, and preserves the slot's existing
`startTime`, `volume` and `pan` (only the end of the trim window is reset). -/
theorem loadSample_success_slot_update (s : EngineState) (pad : Nat) (d : ℚ)
    (name : String) (h : pad < s.samples.length) :
    (getSample (loadSample pad (some d) name s).1 pad).buffer = some d ∧
    (getSample (loadSample pad (some d) name s).1 pad).endTime = 1 ∧
    (getSample (loadSample pad (some d) name s).1 pad).startTime
        = (getSample s pad).startTime ∧
    (getSample (loadSample pad (some d) name s).1 pad).volume
        = (getSample s pad).volume ∧
    (getSample (loadSample pad (some d) name s).1 pad).pan
        = (getSample s pad).pan := by
  simp only [getSample, loadSample]
  rw [listModify_getD_self _ _ _ _ h]
  exact ⟨rfl, rfl, rfl, rfl, rfl⟩

/-- C6 witness: the amended slot-update behavior evaluated on the fresh
engine with a 2-second decode on pad 0. -/
theorem loadSample_success_slot_update_witness :
    0 < (mkEngine true).samples.length ∧
    ((getSample (loadSample 0 (some 2) "kick.wav" (mkEngine true)).1 0).buffer
        = some 2 ∧
     (getSample (loadSample 0 (some 2) "kick.wav" (mkEngine true)).1 0).endTime
        = 1 ∧
     (getSample (loadSample 0 (some 2) "kick.wav" (mkEngine true)).1 0).startTime
        = (getSample (mkEngine true) 0).startTime ∧
     (getSample (loadSample 0 (some 2) "kick.wav" (mkEngine true)).1 0).volume
        = (getSample (mkEngine true) 0).volume ∧
     (getSample (loadSample 0 (some 2) "kick.wav" (mkEngine true)).1 0).pan
        = (getSample (mkEngine true) 0).pan) :=
  ⟨by decide,
   by
    have h := loadSample_success_slot_update (mkEngine true) 0 2 ("kick.wav") (by decide)
    exact ⟨h.1, h.2.1, h.2.2.1, h.2.2.2.1, h.2.2.2.2⟩⟩

/-- C7 counterexample: the snapshot returned by `exportProject` is not
stable: a subsequent `toggleStep` mutates the pattern contents reachable
through the previously returned snapshot (the snapshot aliases the engine's
pattern array). -/
theorem exportProject_snapshot_mutated_by_toggle :
    snapshotPatterns (exportProjectRefs 0 engineRefs0)
        (toggleStepRefs 3 0 engineRefs0 refHeap0)
      ≠ snapshotPatterns (exportProjectRefs 0 engineRefs0) refHeap0 := by
  decide

/-- C7 amended: `exportProject` copies references, not contents, so a
previously returned snapshot is a live view of the engine's containers:
after any later in-place pattern mutation (`toggleStep`), reading the
snapshot yields exactly the engine's current (mutated) pattern contents,
not the export-time ones. -/
theorem exportProject_snapshot_aliases_engine (now padIndex stepIndex : Nat)
    (e : EngineRefs) (h : RefHeap) :
    snapshotPatterns (exportProjectRefs now e) (toggleStepRefs padIndex stepIndex e h)
      = enginePatternsView e (toggleStepRefs padIndex stepIndex e h) :=
  rfl

/-! Branch lemmas for the `triggerPad` playback path. -/

theorem triggerPad_noSample (s : EngineState) (pad : Nat) (vel : ℚ) (sch : Bool)
    (hb : (getSample s pad).buffer = none) :
    triggerPad pad vel sch s = (s, .noSample) := by
  simp [triggerPad, hb]

theorem triggerPad_noop (s : EngineState) (pad : Nat) (vel : ℚ) (sch : Bool)
    (d : ℚ) (hb : (getSample s pad).buffer = some d)
    (h : d ≤ 0 ∨ min d ((getSample s pad).endTime * d)
        - max 0 ((getSample s pad).startTime * d) ≤ 0) :
    (triggerPad pad vel sch s).1 = s ∧
    ((triggerPad pad vel sch s).2).isStarted = false := by
  by_cases hctx : s.ctxRunning
  · rcases h with hd | hdur
    · simp [triggerPad, hb, hctx, hd, TriggerResult.isStarted]
    · by_cases hd : d ≤ 0
      · simp [triggerPad, hb, hctx, hd, TriggerResult.isStarted]
      · simp [triggerPad, hb, hctx, hd, hdur, TriggerResult.isStarted]
  · simp [triggerPad, hb, hctx, TriggerResult.isStarted]

theorem triggerPad_result_started (s : EngineState) (pad : Nat) (vel d : ℚ)
    (sch : Bool)
    (hb : (getSample s pad).buffer = some d)
    (hctx : s.ctxRunning = true)
    (hd : ¬ d ≤ 0)
    (hdur : ¬ min d ((getSample s pad).endTime * d)
        - max 0 ((getSample s pad).startTime * d) ≤ 0) :
    (triggerPad pad vel sch s).2
      = .started (max 0 ((getSample s pad).startTime * d))
          (min d ((getSample s pad).endTime * d)
            - max 0 ((getSample s pad).startTime * d)) := by
  simp [triggerPad, hb, hctx, hd, hdur]

theorem triggerPad_state_records (s : EngineState) (pad : Nat) (vel d : ℚ)
    (hrec : s.isRecording = true)
    (hctx : s.ctxRunning = true)
    (hb : (getSample s pad).buffer = some d)
    (hd : 0 < d)
    (hdur : 0 < min d ((getSample s pad).endTime * d)
        - max 0 ((getSample s pad).startTime * d)) :
    (triggerPad pad vel false s).1 = recordStep pad vel s := by
  simp [triggerPad, hb, hctx, not_le.2 hd, not_le.2 hdur, hrec]

theorem triggerPad_state_cases (pad : Nat) (vel : ℚ) (sch : Bool)
    (s : EngineState) :
    (triggerPad pad vel sch s).1 = s ∨
    (triggerPad pad vel sch s).1 = recordStep pad vel s := by
  cases hb : (getSample s pad).buffer with
  | none => rw [triggerPad_noSample s pad vel sch hb]
            exact Or.inl rfl
  | some d =>
    by_cases hctx : s.ctxRunning
    · by_cases hd : d ≤ 0
      · exact Or.inl (triggerPad_noop s pad vel sch d hb (Or.inl hd)).1
      · by_cases hdur : min d ((getSample s pad).endTime * d)
            - max 0 ((getSample s pad).startTime * d) ≤ 0
        · exact Or.inl (triggerPad_noop s pad vel sch d hb (Or.inr hdur)).1
        · by_cases hrec : s.isRecording && !sch
          · exact Or.inr (by simp [triggerPad, hb, hctx, hd, hdur, hrec])
          · exact Or.inl (by simp [triggerPad, hb, hctx, hd, hdur, hrec])
    · exact Or.inl (by simp [triggerPad, hb, hctx])

/-- C4: with a loaded sample, `0 ≤ startTime < endTime ≤ 1` and a positive
buffer duration (and a running audio context), `triggerPad` computes offset
`startTime * d ≥ 0` and length `(endTime - startTime) * d > 0` and starts
the voice; and when the duration is not positive or the computed length is
not positive, the call is a no-op that changes no engine state and starts
nothing. -/
theorem triggerPad_trim_safety :
    (∀ (s : EngineState) (pad : Nat) (vel d : ℚ),
      (getSample s pad).buffer = some d →
      s.ctxRunning = true →
      0 < d →
      0 ≤ (getSample s pad).startTime →
      (getSample s pad).startTime < (getSample s pad).endTime →
      (getSample s pad).endTime ≤ 1 →
      (triggerPad pad vel false s).2
          = .started ((getSample s pad).startTime * d)
              (((getSample s pad).endTime - (getSample s pad).startTime) * d) ∧
      0 ≤ (getSample s pad).startTime * d ∧
      0 < ((getSample s pad).endTime - (getSample s pad).startTime) * d) ∧
    (∀ (s : EngineState) (pad : Nat) (vel d : ℚ) (sch : Bool),
      (getSample s pad).buffer = some d →
      (d ≤ 0 ∨ min d ((getSample s pad).endTime * d)
          - max 0 ((getSample s pad).startTime * d) ≤ 0) →
      (triggerPad pad vel sch s).1 = s ∧
      ((triggerPad pad vel sch s).2).isStarted = false) := by
  constructor
  · intro s pad vel d hb hctx hd h0 hlt h1
    have hoff : (0:ℚ) ≤ (getSample s pad).startTime * d := mul_nonneg h0 hd.le
    have hmax : max 0 ((getSample s pad).startTime * d)
        = (getSample s pad).startTime * d := max_eq_right hoff
    have hle : (getSample s pad).endTime * d ≤ d := by
      calc (getSample s pad).endTime * d ≤ 1 * d :=
            mul_le_mul_of_nonneg_right h1 hd.le
        _ = d := one_mul d
    have hmin : min d ((getSample s pad).endTime * d)
        = (getSample s pad).endTime * d := min_eq_right hle
    have hpos : 0 < ((getSample s pad).endTime - (getSample s pad).startTime) * d :=
      mul_pos (sub_pos.2 hlt) hd
    have hdureq : min d ((getSample s pad).endTime * d)
        - max 0 ((getSample s pad).startTime * d)
        = ((getSample s pad).endTime - (getSample s pad).startTime) * d := by
      rw [hmax, hmin, sub_mul]
    have hdurpos : ¬ min d ((getSample s pad).endTime * d)
        - max 0 ((getSample s pad).startTime * d) ≤ 0 := by
      rw [hdureq]; exact not_le.2 hpos
    refine ⟨?_, hoff, hpos⟩
    rw [triggerPad_result_started s pad vel d false hb hctx (not_le.2 hd) hdurpos,
        hmax, hmin, sub_mul]
  · intro s pad vel d sch hb hdisj
    exact triggerPad_noop s pad vel sch d hb hdisj

/-- C4 witness: the safety facts evaluated on the fresh engine with a
2-second sample on pad 0 (happy path) and a zero-duration buffer on pad 1
(no-op path). -/
theorem triggerPad_trim_safety_witness :
    ((getSample sLoaded 0).buffer = some 2 ∧
     sLoaded.ctxRunning = true ∧
     (triggerPad 0 1 false sLoaded).2
        = .started ((getSample sLoaded 0).startTime * 2)
            (((getSample sLoaded 0).endTime - (getSample sLoaded 0).startTime) * 2)) ∧
    ((getSample sZeroDur 1).buffer = some 0 ∧
     (triggerPad 1 1 false sZeroDur).1 = sZeroDur ∧
     ((triggerPad 1 1 false sZeroDur).2).isStarted = false) := by
  constructor
  · exact ⟨rfl, rfl,
      (triggerPad_trim_safety.1 sLoaded 0 1 2 rfl rfl (by norm_num) (by decide)
        (by decide) (by decide)).1⟩
  · refine ⟨rfl, ?_, ?_⟩
    · exact (triggerPad_trim_safety.2 sZeroDur 1 1 0 false rfl (Or.inl le_rfl)).1
    · exact (triggerPad_trim_safety.2 sZeroDur 1 1 0 false rfl (Or.inl le_rfl)).2

/-- C10: a manual trigger while recording that takes an early-exit path (no
loaded sample, non-positive buffer duration, or non-positive computed trim
window) performs no recording write: the pattern list, in particular the
active pattern's steps and velocities matrices, is unchanged. -/
theorem triggerPad_earlyExit_no_record (s : EngineState) (pad : Nat) (vel : ℚ)
    (_hrec : s.isRecording = true)
    (hexit : (getSample s pad).buffer = none ∨
      (∃ d, (getSample s pad).buffer = some d ∧ d ≤ 0) ∨
      (∃ d, (getSample s pad).buffer = some d ∧
        min d ((getSample s pad).endTime * d)
          - max 0 ((getSample s pad).startTime * d) ≤ 0)) :
    (triggerPad pad vel false s).1.patterns = s.patterns := by
  rcases hexit with hnone | ⟨d, hb, hd⟩ | ⟨d, hb, hdur⟩
  · rw [triggerPad_noSample s pad vel false hnone]
  · rw [(triggerPad_noop s pad vel false d hb (Or.inl hd)).1]
  · rw [(triggerPad_noop s pad vel false d hb (Or.inr hdur)).1]

/-- C10 witness: recording on the fresh engine, manual trigger of the empty
pad 5 leaves the pattern list unchanged. -/
theorem triggerPad_earlyExit_no_record_witness :
    (startRecording (mkEngine true)).isRecording = true ∧
    (getSample (startRecording (mkEngine true)) 5).buffer = none ∧
    (triggerPad 5 1 false (startRecording (mkEngine true))).1.patterns
      = (startRecording (mkEngine true)).patterns :=
  ⟨rfl, rfl, triggerPad_earlyExit_no_record _ 5 1 rfl (Or.inl rfl)⟩

/-- C2 counterexample: with the transport at tick 576 (PPQ 192, so the
claim's `floor(clockPosition / stepDuration)` is 12) and the active pattern
of length 8 loaded via `loadProject`, the claim's index
`floor(...) mod patternLength` is 4, but the recording write does not land
there: cell 4 stays false (the engine writes cell 12, `floor(...) mod 16`). -/
theorem recording_write_not_mod_patternLength :
    4 * sRec8.transportTicks / sRec8.ppq % (getCurrentPattern sRec8).length = 4 ∧
    ((getCurrentPattern (triggerPad 0 1 false sRec8).1).steps.getD 0 []).getD
        4 false = false ∧
    ((getCurrentPattern (triggerPad 0 1 false sRec8).1).steps.getD 0 []).getD
        12 false = true := by
  have hstate : (triggerPad 0 1 false sRec8).1 = recordStep 0 1 sRec8 :=
    triggerPad_state_records sRec8 0 1 2 rfl rfl rfl (by norm_num)
      (by show (0:ℚ) < min 2 (1 * 2) - max 0 (0 * 2); norm_num)
  refine ⟨by decide, ?_, ?_⟩ <;> rw [hstate] <;> decide

/-- C2 amended: when Recording is true and `triggerPad` is invoked by direct
user action (no scheduledTime) on a pad with a loaded sample of positive
buffer duration and positive computed trim window, while the audio context
is running, the engine computes
`quantizedStep = floor(clockPosition / stepDuration) mod 16` — a fixed 16,
not the active pattern's length — and synchronously sets
`steps[pad][quantizedStep] = true` and
`velocities[pad][quantizedStep] = velocity` on the active pattern. -/
theorem recording_write_quantized_mod16 (s : EngineState) (pad : Nat)
    (vel d : ℚ)
    (hrec : s.isRecording = true)
    (hctx : s.ctxRunning = true)
    (hb : (getSample s pad).buffer = some d)
    (hd : 0 < d)
    (hdur : 0 < min d ((getSample s pad).endTime * d)
        - max 0 ((getSample s pad).startTime * d))
    (hcur : s.currentPattern < s.patterns.length)
    (hpadS : pad < (getCurrentPattern s).steps.length)
    (hpadV : pad < (getCurrentPattern s).velocities.length) :
    ((getCurrentPattern (triggerPad pad vel false s).1).steps.getD pad []).getD
        (4 * s.transportTicks / s.ppq % 16) false = true ∧
    ((getCurrentPattern (triggerPad pad vel false s).1).velocities.getD pad []).getD
        (4 * s.transportTicks / s.ppq % 16) 0 = vel := by
  rw [triggerPad_state_records s pad vel d hrec hctx hb hd hdur]
  have hcur2 : getCurrentPattern (recordStep pad vel s)
      = { getCurrentPattern s with
            steps := listModify (getCurrentPattern s).steps pad
              (fun row => jsWrite row (getQuantizedStep s) false true)
            velocities := listModify (getCurrentPattern s).velocities pad
              (fun row => jsWrite row (getQuantizedStep s) 0 vel) } :=
    listModify_getD_self s.patterns s.currentPattern _ emptyPattern hcur
  rw [hcur2]
  constructor
  · have h3 : (listModify (getCurrentPattern s).steps pad
        (fun row => jsWrite row (getQuantizedStep s) false true)).getD pad []
        = jsWrite ((getCurrentPattern s).steps.getD pad [])
            (getQuantizedStep s) false true :=
      listModify_getD_self _ _ _ _ hpadS
    show (((listModify (getCurrentPattern s).steps pad
        (fun row => jsWrite row (getQuantizedStep s) false true)).getD pad []).getD
        (4 * s.transportTicks / s.ppq % 16) false) = true
    rw [h3]
    exact jsWrite_getD_self _ _ _ _ _
  · have h3 : (listModify (getCurrentPattern s).velocities pad
        (fun row => jsWrite row (getQuantizedStep s) 0 vel)).getD pad []
        = jsWrite ((getCurrentPattern s).velocities.getD pad [])
            (getQuantizedStep s) 0 vel :=
      listModify_getD_self _ _ _ _ hpadV
    show (((listModify (getCurrentPattern s).velocities pad
        (fun row => jsWrite row (getQuantizedStep s) 0 vel)).getD pad []).getD
        (4 * s.transportTicks / s.ppq % 16) 0) = vel
    rw [h3]
    exact jsWrite_getD_self _ _ _ _ _

/-- C2 witness: recording on the fresh engine's 16-step pattern at tick 576,
the manual trigger of pad 0 writes step 12 with the given velocity. -/
theorem recording_write_quantized_mod16_witness :
    sRec16.isRecording = true ∧
    ((getCurrentPattern (triggerPad 0 1 false sRec16).1).steps.getD 0 []).getD
        (4 * sRec16.transportTicks / sRec16.ppq % 16) false = true ∧
    ((getCurrentPattern (triggerPad 0 1 false sRec16).1).velocities.getD 0 []).getD
        (4 * sRec16.transportTicks / sRec16.ppq % 16) 0 = 1 := by
  refine ⟨rfl, ?_⟩
  exact recording_write_quantized_mod16 sRec16 0 1 2 rfl rfl rfl (by norm_num)
    (by show (0:ℚ) < min 2 (1 * 2) - max 0 (0 * 2); norm_num)
    (by decide) (by decide) (by decide)

/-! Shape-invariant preservation lemmas. -/

theorem patOK_modifySteps (p : Pattern) (hp : patOK p) (padIndex : Nat)
    (g : List Bool → List Bool)
    (hg : ∀ row : List Bool, row.length = p.length → (g row).length = p.length) :
    patOK { p with steps := listModify p.steps padIndex g } := by
  obtain ⟨hs, hv, hrs, hrv⟩ := hp
  refine ⟨?_, hv, ?_, hrv⟩
  · simpa [listModify_length] using hs
  · intro r hr
    rcases mem_listModify p.steps padIndex g r hr with h | ⟨hlt, rfl⟩
    · exact hrs r h
    · exact hg _ (hrs _ (List.get_mem _ _ _))

theorem patOK_modifyVelocities (p : Pattern) (hp : patOK p) (padIndex : Nat)
    (g : List ℚ → List ℚ)
    (hg : ∀ row : List ℚ, row.length = p.length → (g row).length = p.length) :
    patOK { p with velocities := listModify p.velocities padIndex g } := by
  obtain ⟨hs, hv, hrs, hrv⟩ := hp
  refine ⟨hs, ?_, hrs, ?_⟩
  · simpa [listModify_length] using hv
  · intro r hr
    rcases mem_listModify p.velocities padIndex g r hr with h | ⟨hlt, rfl⟩
    · exact hrv r h
    · exact hg _ (hrv _ (List.get_mem _ _ _))

theorem patOK_recordUpdate (p : Pattern) (hp : patOK p) (padIndex q : Nat)
    (vel : ℚ) (hq : q < p.length) :
    patOK { p with
      steps := listModify p.steps padIndex (fun row => jsWrite row q false true)
      velocities := listModify p.velocities padIndex
        (fun row => jsWrite row q 0 vel) } := by
  have h1 : patOK { p with
      steps := listModify p.steps padIndex (fun row => jsWrite row q false true) } :=
    patOK_modifySteps p hp padIndex _ (fun row hrow => by
      rw [jsWrite_length_of_lt _ _ _ _ (by omega)]; exact hrow)
  exact patOK_modifyVelocities
    { p with steps := (listModify p.steps padIndex (fun row => jsWrite row q false true)) }
    h1 padIndex _ (fun row hrow => by
      have hrow2 : row.length = p.length := hrow
      rw [jsWrite_length_of_lt _ _ _ _ (by omega)]; exact hrow)

theorem shapeOK_modifyCurrentPattern (s : EngineState) (hs : shapeOK s)
    (f : Pattern → Pattern)
    (hf : patOK (getCurrentPattern s) → patOK (f (getCurrentPattern s))) :
    ∀ q ∈ listModify s.patterns s.currentPattern f, patOK q := by
  intro q hq
  rcases mem_listModify s.patterns s.currentPattern f q hq with h | ⟨hlt, rfl⟩
  · exact hs q h
  · have hy : s.patterns.get ⟨s.currentPattern, hlt⟩ = getCurrentPattern s := by
      rw [List.get_eq_getElem]
      exact (List.getD_eq_getElem s.patterns emptyPattern hlt).symm
    rw [hy]
    exact hf (hy ▸ hs _ (List.get_mem _ _ _))

theorem shapeOK_mkEngine (c : Bool) : shapeOK (mkEngine c) := by
  intro p hp
  rcases List.mem_singleton.1 hp with rfl
  decide

theorem shapeOK_toggleStep (s : EngineState) (hs : shapeOK s)
    (padIndex stepIndex : Nat)
    (hstep : stepIndex < (getCurrentPattern s).length) :
    shapeOK (toggleStep padIndex stepIndex s) := by
  intro q hq
  exact shapeOK_modifyCurrentPattern s hs _ (fun hp =>
    patOK_modifySteps _ hp padIndex _ (fun row hrow => by
      rw [jsWrite_length_of_lt _ _ _ _ (by omega)]; exact hrow)) q hq

theorem shapeOK_setStepVelocity (s : EngineState) (hs : shapeOK s)
    (padIndex stepIndex : Nat) (vel : ℚ)
    (hstep : stepIndex < (getCurrentPattern s).length) :
    shapeOK (setStepVelocity padIndex stepIndex vel s) := by
  intro q hq
  exact shapeOK_modifyCurrentPattern s hs _ (fun hp =>
    patOK_modifyVelocities _ hp padIndex _ (fun row hrow => by
      rw [jsWrite_length_of_lt _ _ _ _ (by omega)]; exact hrow)) q hq

theorem shapeOK_recordStep (s : EngineState) (hs : shapeOK s)
    (padIndex : Nat) (vel : ℚ)
    (hlen : (getCurrentPattern s).length = 16) :
    shapeOK (recordStep padIndex vel s) := by
  have hq : getQuantizedStep s < (getCurrentPattern s).length := by
    rw [hlen]; exact Nat.mod_lt _ (by norm_num)
  intro q hq2
  exact shapeOK_modifyCurrentPattern s hs _ (fun hp =>
    patOK_recordUpdate _ hp padIndex _ vel hq) q hq2

theorem shapeOK_addPattern (s : EngineState) (hs : shapeOK s) :
    shapeOK (addPattern s).1 := by
  intro q hq
  rcases List.mem_append.1 hq with h | h
  · exact hs q h
  · rcases List.mem_singleton.1 h with rfl
    refine ⟨by simp, by simp, ?_, ?_⟩ <;> intro r hr <;>
      rw [List.eq_of_mem_replicate hr] <;> simp

theorem shapeOK_loadProject (s : EngineState) (p : Project)
    (hp : ∀ q ∈ p.patterns, patOK q) : shapeOK (loadProject p s) := hp

theorem shapeOK_triggerPad (s : EngineState) (hs : shapeOK s)
    (padIndex : Nat) (vel : ℚ) (sch : Bool)
    (hlen : (getCurrentPattern s).length = 16) :
    shapeOK ((triggerPad padIndex vel sch s).1) := by
  rcases triggerPad_state_cases padIndex vel sch s with h | h
  · rw [h]; exact hs
  · rw [h]; exact shapeOK_recordStep s hs padIndex vel hlen

/-- C5 counterexample: `toggleStep` with an out-of-range step index breaks
the matrix shape: on the fresh engine, `toggleStep 0 16` extends row 0 of
the 16-column steps matrix to 17 entries (JS array write past the end). -/
theorem shape_invariant_broken_by_oob_toggle :
    ¬ shapeOK (toggleStep 0 16 (mkEngine true)) := by
  decide

/-- C5 amended: the 16-rows-by-length-columns shape of all steps and
velocities matrices holds at construction and is preserved by every public
operation when called within bounds: `toggleStep`/`setStepVelocity` with a
step index below the active pattern's length, `addPattern`, trigger calls
(including recording writes) when the active pattern has length 16, and
`loadProject` when every pattern of the imported project is well-shaped.
Out-of-range step indices and malformed imported projects can break it. -/
theorem pattern_shape_invariant :
    (∀ c, shapeOK (mkEngine c)) ∧
    (∀ (s : EngineState) (padIndex stepIndex : Nat), shapeOK s →
      stepIndex < (getCurrentPattern s).length →
      shapeOK (toggleStep padIndex stepIndex s)) ∧
    (∀ (s : EngineState) (padIndex stepIndex : Nat) (vel : ℚ), shapeOK s →
      stepIndex < (getCurrentPattern s).length →
      shapeOK (setStepVelocity padIndex stepIndex vel s)) ∧
    (∀ s : EngineState, shapeOK s → shapeOK (addPattern s).1) ∧
    (∀ (s : EngineState) (padIndex : Nat) (vel : ℚ) (sch : Bool), shapeOK s →
      (getCurrentPattern s).length = 16 →
      shapeOK ((triggerPad padIndex vel sch s).1)) ∧
    (∀ (s : EngineState) (p : Project), (∀ q ∈ p.patterns, patOK q) →
      shapeOK (loadProject p s)) :=
  ⟨shapeOK_mkEngine,
   fun s a b hs h => shapeOK_toggleStep s hs a b h,
   fun s a b v hs h => shapeOK_setStepVelocity s hs a b v h,
   fun s hs => shapeOK_addPattern s hs,
   fun s a v sch hs h => shapeOK_triggerPad s hs a v sch h,
   fun s p hp => shapeOK_loadProject s p hp⟩

/-- C5 witness: the invariant evaluated across one concrete call of each
operation, starting from the fresh engine (and, for the trigger case, from
the recording state with a loaded pad). -/
theorem pattern_shape_invariant_witness :
    shapeOK (mkEngine true) ∧
    shapeOK (toggleStep 3 0 (mkEngine true)) ∧
    shapeOK (setStepVelocity 3 0 1 (mkEngine true)) ∧
    shapeOK (addPattern (mkEngine true)).1 ∧
    shapeOK ((triggerPad 0 1 false sRec16).1) ∧
    shapeOK (loadProject (exportProject 0 (mkEngine true)) (mkEngine true)) :=
  ⟨pattern_shape_invariant.1 true,
   pattern_shape_invariant.2.1 (mkEngine true) 3 0
     (pattern_shape_invariant.1 true) (by decide),
   pattern_shape_invariant.2.2.1 (mkEngine true) 3 0 1
     (pattern_shape_invariant.1 true) (by decide),
   pattern_shape_invariant.2.2.2.1 (mkEngine true)
     (pattern_shape_invariant.1 true),
   pattern_shape_invariant.2.2.2.2.1 sRec16 0 1 false (by decide) (by decide),
   pattern_shape_invariant.2.2.2.2.2 (mkEngine true)
     (exportProject 0 (mkEngine true)) (by decide)⟩

end SamplingDrum
